import Mathlib

/-!
Verification of the Scheduler task tracker.

The program is a three-compartment task tracker: tasks are created Staged,
moved to Active by `startTask` (stamping `startTime`), and moved to the
finished log by `finishTask` (stamping `finishTime`).  `Scheduler.cpp` is
embedded below; the `Task` class itself (its header and implementation are
not part of the sources at hand) is modelled from the specification's
description of its fields and transitions.  Wall-clock reads
(`time(nullptr)` inside the transition operations) are made explicit: each
mutating transition receives the clock value it observes as an argument.
Console output is modelled as the list of lines an operation emits.
-/

namespace OOPSProject

/-- Lifecycle states of a task: Staged, Active, Finished. -/
inductive Status where
  | Staged
  | Active
  | Finished
deriving DecidableEq

/-- Modelled from the spec: the `Task` value (its class lives outside the
available sources).  `id`, `description`, `estimate` are set at creation;
`status` starts `Staged`; the two `time_t` timestamps start at 0, the
conventional "absent" value, and are stamped by the transitions. -/
structure Task where
  id : Int
  description : String
  estimate : Int
  status : Status
  startTime : Int
  finishTime : Int
deriving DecidableEq

/-- Modelled from the spec: `Task::Task(id, description, estimate)` produces a
Staged task with both timestamps absent (0). -/
def Task.create (id : Int) (description : String) (estimate : Int) : Task :=
  ⟨id, description, estimate, Status.Staged, 0, 0⟩

/-- Modelled from the spec: `Task::markActive` stamps `startTime` with the
current wall-clock instant (passed in as `now`) and sets status to Active. -/
def Task.markActive (now : Int) (t : Task) : Task :=
  { t with status := Status.Active, startTime := now }

/-- Modelled from the spec: `Task::markFinished` stamps `finishTime` with the
current wall-clock instant and sets status to Finished. -/
def Task.markFinished (now : Int) (t : Task) : Task :=
  { t with status := Status.Finished, finishTime := now }

/-- Display name of a status, used only inside `Task.getDetails`. -/
def statusName : Status → String
  | Status.Staged => "Staged"
  | Status.Active => "Active"
  | Status.Finished => "Finished"

/-- Modelled from the spec: `Task::getDetails` renders one line with id,
status, description and estimate.  Its exact text is display-only and never
parsed; the claims treat it as an opaque rendering. -/
def Task.getDetails (t : Task) : String :=
  "[#" ++ toString t.id ++ "] (" ++ statusName t.status ++ ") " ++
    t.description ++ " | Est: " ++ toString t.estimate ++ " m"

/-- The Scheduler state: identity counter and the three compartments
(`Scheduler.h` fields, as used throughout `Scheduler.cpp`). -/
structure Scheduler where
  nextId : Int
  stagedTasks : List Task
  activeTasks : List Task
  finishedLog : List Task
deriving DecidableEq

/-- `Scheduler::Scheduler()` — initializes `nextId` to 1, compartments empty. -/
def Scheduler.init : Scheduler :=
  ⟨1, [], [], []⟩

/-- `Scheduler::findTaskById` — linear scan, first task whose id matches. -/
def findTaskById (id : Int) (list : List Task) : Option Task :=
  list.find? (fun t => t.id == id)

/-- `Scheduler::addTask` — construct `Task(nextId++, description, estimate)`,
append to `stagedTasks`, emit the confirmation line. -/
def Scheduler.addTask (s : Scheduler) (description : String) (estimate : Int) :
    Scheduler × List String :=
  let t := Task.create s.nextId description estimate
  ({ s with nextId := s.nextId + 1, stagedTasks := s.stagedTasks ++ [t] },
   ["Added task [#" ++ toString t.id ++ "] to staged tasks."])

/-- `Scheduler::startTask` — find the staged task by id; if absent emit the
not-found notice and return unchanged; otherwise mark it active (stamping
`startTime` with the observed clock `now`), push the copy onto
`activeTasks`, and erase every staged task with that id (`remove_if`). -/
def Scheduler.startTask (s : Scheduler) (now : Int) (id : Int) :
    Scheduler × List String :=
  match findTaskById id s.stagedTasks with
  | none => (s, ["Task [#" ++ toString id ++ "] not found in staged tasks."])
  | some t =>
    let t2 := Task.markActive now t
    ({ s with activeTasks := s.activeTasks ++ [t2],
              stagedTasks := s.stagedTasks.filter (fun x => !(x.id == id)) },
     ["Started task [#" ++ toString id ++ "]."])

/-- `Scheduler::finishTask` — find the active task by id; if absent emit the
not-found notice and return unchanged; otherwise mark it finished (stamping
`finishTime`), push the copy onto `finishedLog`, and erase the active
entry. -/
def Scheduler.finishTask (s : Scheduler) (now : Int) (id : Int) :
    Scheduler × List String :=
  match findTaskById id s.activeTasks with
  | none => (s, ["Task [#" ++ toString id ++ "] not found in active tasks."])
  | some t =>
    let t2 := Task.markFinished now t
    ({ s with finishedLog := s.finishedLog ++ [t2],
              activeTasks := s.activeTasks.filter (fun x => !(x.id == id)) },
     ["Finished task [#" ++ toString id ++ "]."])

/-- `Scheduler::viewStagedTasks` — const: header with the count, then either
"(none)" or one `getDetails` line per staged task, in order. -/
def Scheduler.viewStagedTasks (s : Scheduler) : Scheduler × List String :=
  (s, ("--- Staged Tasks (" ++ toString s.stagedTasks.length ++ ") ---") ::
      (if s.stagedTasks.isEmpty then ["(none)"]
       else s.stagedTasks.map Task.getDetails))

/-- `Scheduler::viewActiveTasks` — const: header with the count, then either
"(none)" or one `getDetails` line per active task, in order. -/
def Scheduler.viewActiveTasks (s : Scheduler) : Scheduler × List String :=
  (s, ("--- Active Tasks (" ++ toString s.activeTasks.length ++ ") ---") ::
      (if s.activeTasks.isEmpty then ["(none)"]
       else s.activeTasks.map Task.getDetails))

/-- One output line of `Scheduler::printLog`'s loop body: the `getDetails`
rendering, and when both raw timestamps differ from 0 the
`" | Actual: S s (M m R s)"` segment, with `S = difftime(finish, start)`,
`M = S / 60`, `R = S % 60` in C++ (truncating) integer arithmetic. -/
def logLine (t : Task) : String :=
  t.getDetails ++
    (if t.startTime != 0 && t.finishTime != 0 then
      let seconds := t.finishTime - t.startTime
      let minutes := Int.tdiv seconds 60
      let rem := Int.tmod seconds 60
      " | Actual: " ++ toString seconds ++ " s (" ++ toString minutes ++
        " m " ++ toString rem ++ " s)"
    else "")

/-- `Scheduler::printLog` — const: header with the count of `finishedLog`,
then either "(none)" or one `logLine` per finished task, in order. -/
def Scheduler.printLog (s : Scheduler) : Scheduler × List String :=
  (s, ("--- Finished Tasks Log (" ++ toString s.finishedLog.length ++ ") ---") ::
      (if s.finishedLog.isEmpty then ["(none)"]
       else s.finishedLog.map logLine))

/-- One public operation, as issued by the REPL.  Mutating transitions carry
the wall-clock value they observe. -/
inductive Op where
  | add (description : String) (estimate : Int)
  | start (now : Int) (id : Int)
  | finish (now : Int) (id : Int)
  | viewStaged
  | viewActive
  | log

/-- State effect of one public operation. -/
def step (s : Scheduler) : Op → Scheduler
  | Op.add d e => (s.addTask d e).1
  | Op.start now id => (s.startTask now id).1
  | Op.finish now id => (s.finishTask now id).1
  | Op.viewStaged => s.viewStagedTasks.1
  | Op.viewActive => s.viewActiveTasks.1
  | Op.log => s.printLog.1

/-- Run a sequence of public operations from a state. -/
def exec (s : Scheduler) : List Op → Scheduler
  | [] => s
  | op :: ops => exec (step s op) ops

/-- The ids carried by a task list, in order. -/
def idsOf (l : List Task) : List Int :=
  l.map (fun t => t.id)

/-- The state invariant maintained by every public operation: statuses match
compartments, staged tasks carry no timestamps, active tasks carry no finish
timestamp, the compartments are pairwise disjoint on id, and `nextId`
strictly bounds every id in the system. -/
structure Inv (s : Scheduler) : Prop where
  staged_ok : ∀ t ∈ s.stagedTasks,
    t.status = Status.Staged ∧ t.startTime = 0 ∧ t.finishTime = 0
  active_ok : ∀ t ∈ s.activeTasks, t.status = Status.Active ∧ t.finishTime = 0
  fin_ok : ∀ t ∈ s.finishedLog, t.status = Status.Finished
  staged_active : ∀ a ∈ s.stagedTasks, ∀ b ∈ s.activeTasks, a.id ≠ b.id
  staged_fin : ∀ a ∈ s.stagedTasks, ∀ b ∈ s.finishedLog, a.id ≠ b.id
  active_fin : ∀ a ∈ s.activeTasks, ∀ b ∈ s.finishedLog, a.id ≠ b.id
  staged_lt : ∀ t ∈ s.stagedTasks, t.id < s.nextId
  active_lt : ∀ t ∈ s.activeTasks, t.id < s.nextId
  fin_lt : ∀ t ∈ s.finishedLog, t.id < s.nextId

/-- Clock-history bound: every active task was started no later than `τ`
(the last clock value observed), and every finished task was started no
later than it finished. -/
def TimeOk (τ : Int) (s : Scheduler) : Prop :=
  (∀ t ∈ s.activeTasks, t.startTime ≤ τ) ∧
  (∀ t ∈ s.finishedLog, t.startTime ≤ t.finishTime)

/-- The wall-clock readings observed along an operation sequence never
decrease, starting from lower bound `τ`.  Only `start` and `finish` read the
clock. -/
def Mono : Int → List Op → Prop
  | _, [] => True
  | τ, Op.add _ _ :: ops => Mono τ ops
  | τ, Op.start now _ :: ops => τ ≤ now ∧ Mono now ops
  | τ, Op.finish now _ :: ops => τ ≤ now ∧ Mono now ops
  | τ, Op.viewStaged :: ops => Mono τ ops
  | τ, Op.viewActive :: ops => Mono τ ops
  | τ, Op.log :: ops => Mono τ ops

theorem mem_idsOf {i : Int} {l : List Task} :
    i ∈ idsOf l ↔ ∃ t ∈ l, t.id = i := by
  simp [idsOf]

theorem findTaskById_eq_none_iff {i : Int} {l : List Task} :
    findTaskById i l = none ↔ ∀ t ∈ l, t.id ≠ i := by
  simp [findTaskById, List.find?_eq_none]

theorem findTaskById_some {i : Int} {l : List Task} {t : Task}
    (h : findTaskById i l = some t) : t ∈ l ∧ t.id = i := by
  have h' : List.find? (fun x => x.id == i) l = some t := h
  have hp := List.find?_some h'
  exact ⟨List.mem_of_find?_eq_some h', eq_of_beq hp⟩

theorem startTask_none {s : Scheduler} {now i : Int}
    (hf : findTaskById i s.stagedTasks = none) :
    s.startTask now i =
      (s, ["Task [#" ++ toString i ++ "] not found in staged tasks."]) := by
  unfold Scheduler.startTask
  rw [hf]

theorem startTask_found {s : Scheduler} {now i : Int} {t : Task}
    (hf : findTaskById i s.stagedTasks = some t) :
    s.startTask now i =
      ({ s with activeTasks := s.activeTasks ++ [Task.markActive now t],
                stagedTasks := s.stagedTasks.filter (fun x => !(x.id == i)) },
       ["Started task [#" ++ toString i ++ "]."]) := by
  unfold Scheduler.startTask
  rw [hf]

theorem finishTask_none {s : Scheduler} {now i : Int}
    (hf : findTaskById i s.activeTasks = none) :
    s.finishTask now i =
      (s, ["Task [#" ++ toString i ++ "] not found in active tasks."]) := by
  unfold Scheduler.finishTask
  rw [hf]

theorem finishTask_found {s : Scheduler} {now i : Int} {t : Task}
    (hf : findTaskById i s.activeTasks = some t) :
    s.finishTask now i =
      ({ s with finishedLog := s.finishedLog ++ [Task.markFinished now t],
                activeTasks := s.activeTasks.filter (fun x => !(x.id == i)) },
       ["Finished task [#" ++ toString i ++ "]."]) := by
  unfold Scheduler.finishTask
  rw [hf]

theorem exists_find_of_mem_ids {i : Int} {l : List Task} (h : i ∈ idsOf l) :
    ∃ t, findTaskById i l = some t := by
  cases hf : findTaskById i l with
  | some t => exact ⟨t, rfl⟩
  | none =>
    rw [findTaskById_eq_none_iff] at hf
    rcases mem_idsOf.1 h with ⟨t, ht, hid⟩
    exact absurd hid (hf t ht)

theorem mem_filter_ne {i : Int} {l : List Task} {x : Task}
    (h : x ∈ l.filter (fun x => !(x.id == i))) : x ∈ l ∧ x.id ≠ i := by
  have := List.mem_filter.1 h
  simpa using this

theorem inv_init : Inv Scheduler.init := by
  constructor <;> simp [Scheduler.init]

theorem inv_step {s : Scheduler} (h : Inv s) (op : Op) : Inv (step s op) := by
  cases op with
  | add d e =>
    have hstep : step s (Op.add d e) =
        { s with nextId := s.nextId + 1,
                 stagedTasks := s.stagedTasks ++ [Task.create s.nextId d e] } := rfl
    rw [hstep]
    refine ⟨?_, h.active_ok, h.fin_ok, ?_, ?_, h.active_fin, ?_, ?_, ?_⟩
    · intro t ht
      rcases List.mem_append.mp ht with h1 | h1
      · exact h.staged_ok t h1
      · rw [List.mem_singleton] at h1
        subst h1
        exact ⟨rfl, rfl, rfl⟩
    · intro a ha b hb
      rcases List.mem_append.mp ha with h1 | h1
      · exact h.staged_active a h1 b hb
      · rw [List.mem_singleton] at h1
        subst h1
        exact ne_of_gt (h.active_lt b hb)
    · intro a ha b hb
      rcases List.mem_append.mp ha with h1 | h1
      · exact h.staged_fin a h1 b hb
      · rw [List.mem_singleton] at h1
        subst h1
        exact ne_of_gt (h.fin_lt b hb)
    · intro t ht
      rcases List.mem_append.mp ht with h1 | h1
      · exact lt_trans (h.staged_lt t h1) (lt_add_one _)
      · rw [List.mem_singleton] at h1
        subst h1
        exact lt_add_one _
    · exact fun t ht => lt_trans (h.active_lt t ht) (lt_add_one _)
    · exact fun t ht => lt_trans (h.fin_lt t ht) (lt_add_one _)
  | start now i =>
    cases hf : findTaskById i s.stagedTasks with
    | none =>
      have hs : step s (Op.start now i) = s := by
        show (s.startTask now i).1 = s
        rw [startTask_none hf]
      rw [hs]
      exact h
    | some t =>
      obtain ⟨htmem, htid⟩ := findTaskById_some hf
      obtain ⟨hstat, hstart, hfin⟩ := h.staged_ok t htmem
      have hs : step s (Op.start now i) =
          { s with activeTasks := s.activeTasks ++ [Task.markActive now t],
                   stagedTasks := s.stagedTasks.filter (fun x => !(x.id == i)) } := by
        show (s.startTask now i).1 = _
        rw [startTask_found hf]
      rw [hs]
      refine ⟨?_, ?_, h.fin_ok, ?_, ?_, ?_, ?_, ?_, h.fin_lt⟩
      · intro x hx
        exact h.staged_ok x (mem_filter_ne hx).1
      · intro x hx
        rcases List.mem_append.mp hx with h1 | h1
        · exact h.active_ok x h1
        · rw [List.mem_singleton] at h1
          subst h1
          exact ⟨rfl, hfin⟩
      · intro a ha b hb
        rcases List.mem_append.mp hb with h1 | h1
        · exact h.staged_active a (mem_filter_ne ha).1 b h1
        · rw [List.mem_singleton] at h1
          subst h1
          have hne := (mem_filter_ne ha).2
          show a.id ≠ t.id
          rw [htid]
          exact hne
      · intro a ha b hb
        exact h.staged_fin a (mem_filter_ne ha).1 b hb
      · intro a ha b hb
        rcases List.mem_append.mp ha with h1 | h1
        · exact h.active_fin a h1 b hb
        · rw [List.mem_singleton] at h1
          subst h1
          exact h.staged_fin t htmem b hb
      · intro x hx
        exact h.staged_lt x (mem_filter_ne hx).1
      · intro x hx
        rcases List.mem_append.mp hx with h1 | h1
        · exact h.active_lt x h1
        · rw [List.mem_singleton] at h1
          subst h1
          exact h.staged_lt t htmem
  | finish now i =>
    cases hf : findTaskById i s.activeTasks with
    | none =>
      have hs : step s (Op.finish now i) = s := by
        show (s.finishTask now i).1 = s
        rw [finishTask_none hf]
      rw [hs]
      exact h
    | some t =>
      obtain ⟨htmem, htid⟩ := findTaskById_some hf
      have hs : step s (Op.finish now i) =
          { s with finishedLog := s.finishedLog ++ [Task.markFinished now t],
                   activeTasks := s.activeTasks.filter (fun x => !(x.id == i)) } := by
        show (s.finishTask now i).1 = _
        rw [finishTask_found hf]
      rw [hs]
      refine ⟨h.staged_ok, ?_, ?_, ?_, ?_, ?_, h.staged_lt, ?_, ?_⟩
      · intro x hx
        exact h.active_ok x (mem_filter_ne hx).1
      · intro x hx
        rcases List.mem_append.mp hx with h1 | h1
        · exact h.fin_ok x h1
        · rw [List.mem_singleton] at h1
          subst h1
          rfl
      · intro a ha b hb
        exact h.staged_active a ha b (mem_filter_ne hb).1
      · intro a ha b hb
        rcases List.mem_append.mp hb with h1 | h1
        · exact h.staged_fin a ha b h1
        · rw [List.mem_singleton] at h1
          subst h1
          show a.id ≠ t.id
          exact h.staged_active a ha t htmem
      · intro a ha b hb
        rcases List.mem_append.mp hb with h1 | h1
        · exact h.active_fin a (mem_filter_ne ha).1 b h1
        · rw [List.mem_singleton] at h1
          subst h1
          have hne := (mem_filter_ne ha).2
          show a.id ≠ t.id
          rw [htid]
          exact hne
      · intro x hx
        exact h.active_lt x (mem_filter_ne hx).1
      · intro x hx
        rcases List.mem_append.mp hx with h1 | h1
        · exact h.fin_lt x h1
        · rw [List.mem_singleton] at h1
          subst h1
          exact h.active_lt t htmem
  | viewStaged => exact h
  | viewActive => exact h
  | log => exact h

theorem inv_exec {s : Scheduler} (h : Inv s) (ops : List Op) :
    Inv (exec s ops) := by
  induction ops generalizing s with
  | nil => exact h
  | cons op ops ih => exact ih (inv_step h op)

example : (Scheduler.init.addTask "write spec" 30).1.stagedTasks =
    [Task.create 1 "write spec" 30] := by decide

example :
    idsOf (exec Scheduler.init
      [Op.add "a" 5, Op.add "b" 10, Op.start 100 1]).activeTasks = [1] := by
  decide

example :
    (exec Scheduler.init
      [Op.add "a" 5, Op.start 100 1, Op.finish 160 1]).finishedLog =
    [⟨1, "a", 5, Status.Finished, 100, 160⟩] := by decide

theorem timeOk_init (τ : Int) : TimeOk τ Scheduler.init := by
  constructor <;> simp [Scheduler.init]

theorem timeOk_step_start {τ now i : Int} {s : Scheduler}
    (h : TimeOk τ s) (hτ : τ ≤ now) : TimeOk now (step s (Op.start now i)) := by
  cases hf : findTaskById i s.stagedTasks with
  | none =>
    have hs : step s (Op.start now i) = s := by
      show (s.startTask now i).1 = s
      rw [startTask_none hf]
    rw [hs]
    exact ⟨fun t ht => le_trans (h.1 t ht) hτ, h.2⟩
  | some t =>
    have hs : step s (Op.start now i) =
        { s with activeTasks := s.activeTasks ++ [Task.markActive now t],
                 stagedTasks := s.stagedTasks.filter (fun x => !(x.id == i)) } := by
      show (s.startTask now i).1 = _
      rw [startTask_found hf]
    rw [hs]
    refine ⟨?_, h.2⟩
    intro x hx
    rcases List.mem_append.mp hx with h1 | h1
    · exact le_trans (h.1 x h1) hτ
    · rw [List.mem_singleton] at h1
      subst h1
      exact le_refl now

theorem timeOk_step_finish {τ now i : Int} {s : Scheduler}
    (h : TimeOk τ s) (hτ : τ ≤ now) : TimeOk now (step s (Op.finish now i)) := by
  cases hf : findTaskById i s.activeTasks with
  | none =>
    have hs : step s (Op.finish now i) = s := by
      show (s.finishTask now i).1 = s
      rw [finishTask_none hf]
    rw [hs]
    exact ⟨fun t ht => le_trans (h.1 t ht) hτ, h.2⟩
  | some t =>
    obtain ⟨htmem, htid⟩ := findTaskById_some hf
    have hs : step s (Op.finish now i) =
        { s with finishedLog := s.finishedLog ++ [Task.markFinished now t],
                 activeTasks := s.activeTasks.filter (fun x => !(x.id == i)) } := by
      show (s.finishTask now i).1 = _
      rw [finishTask_found hf]
    rw [hs]
    constructor
    · intro x hx
      exact le_trans (h.1 x (mem_filter_ne hx).1) hτ
    · intro x hx
      rcases List.mem_append.mp hx with h1 | h1
      · exact h.2 x h1
      · rw [List.mem_singleton] at h1
        subst h1
        show t.startTime ≤ now
        exact le_trans (h.1 t htmem) hτ

theorem timeOk_exec {τ : Int} {s : Scheduler} {ops : List Op}
    (h : TimeOk τ s) (hm : Mono τ ops) :
    ∃ τ2, TimeOk τ2 (exec s ops) := by
  induction ops generalizing τ s with
  | nil => exact ⟨τ, h⟩
  | cons op ops ih =>
    cases op with
    | add d e =>
      refine ih (τ := τ) ?_ hm
      have hs : step s (Op.add d e) =
          { s with nextId := s.nextId + 1,
                   stagedTasks := s.stagedTasks ++ [Task.create s.nextId d e] } := rfl
      rw [hs]
      exact h
    | start now i => exact ih (timeOk_step_start h hm.1) hm.2
    | finish now i => exact ih (timeOk_step_finish h hm.1) hm.2
    | viewStaged => exact ih h hm
    | viewActive => exact ih h hm
    | log => exact ih h hm

theorem map_range_add (n : Nat) (c : Int) :
    (List.range (n + 1)).map (fun (k : Nat) => c + (k : Int)) =
      c :: (List.range n).map (fun (k : Nat) => c + 1 + (k : Int)) := by
  rw [List.range_succ_eq_map, List.map_cons, List.map_map]
  have h2 : (fun (k : Nat) => c + (k : Int)) ∘ Nat.succ =
      (fun k : Nat => c + 1 + (k : Int)) := by
    funext k
    simp [Function.comp]
    ring
  rw [h2]
  simp

theorem exec_adds (params : List (String × Int)) (s : Scheduler) :
    idsOf (exec s (params.map (fun p => Op.add p.1 p.2))).stagedTasks
      = idsOf s.stagedTasks ++
        (List.range params.length).map (fun (k : Nat) => s.nextId + (k : Int)) := by
  induction params generalizing s with
  | nil => simp [exec, idsOf]
  | cons p ps ih =>
    have hexec : exec s ((p :: ps).map (fun q => Op.add q.1 q.2)) =
        exec (step s (Op.add p.1 p.2)) (ps.map (fun q => Op.add q.1 q.2)) := rfl
    rw [hexec, ih]
    show idsOf (s.stagedTasks ++ [Task.create s.nextId p.1 p.2]) ++
        (List.range ps.length).map (fun (k : Nat) => s.nextId + 1 + (k : Int)) =
      idsOf s.stagedTasks ++
        (List.range (ps.length + 1)).map (fun (k : Nat) => s.nextId + (k : Int))
    rw [map_range_add ps.length s.nextId]
    have hsingle : idsOf (s.stagedTasks ++ [Task.create s.nextId p.1 p.2]) =
        idsOf s.stagedTasks ++ [s.nextId] := by
      simp [idsOf, Task.create]
    rw [hsingle, List.append_assoc, List.singleton_append]

theorem not_mem_idsOf_filter (i : Int) (l : List Task) :
    i ∉ idsOf (l.filter (fun x => !(x.id == i))) := by
  intro h
  rcases mem_idsOf.1 h with ⟨t, ht, htid⟩
  exact (mem_filter_ne ht).2 htid

/-- C1: for every id with a task in `stagedTasks` of a reachable state,
`startTask` marks that task Active (stamping its `startTime` with the
observed clock), appends the marked task at the tail of `activeTasks`,
removes it from `stagedTasks`, and leaves its id in no other
compartment. -/
theorem startTask_moves_staged_to_active (ops : List Op) (now i : Int)
    (h : i ∈ idsOf (exec Scheduler.init ops).stagedTasks) :
    ∃ t, findTaskById i (exec Scheduler.init ops).stagedTasks = some t ∧
      ((exec Scheduler.init ops).startTask now i).1.activeTasks =
        (exec Scheduler.init ops).activeTasks ++ [Task.markActive now t] ∧
      (Task.markActive now t).status = Status.Active ∧
      (Task.markActive now t).startTime = now ∧
      (Task.markActive now t).id = i ∧
      ((exec Scheduler.init ops).startTask now i).1.stagedTasks =
        (exec Scheduler.init ops).stagedTasks.filter (fun x => !(x.id == i)) ∧
      i ∉ idsOf ((exec Scheduler.init ops).startTask now i).1.stagedTasks ∧
      ((exec Scheduler.init ops).startTask now i).1.finishedLog =
        (exec Scheduler.init ops).finishedLog ∧
      i ∉ idsOf ((exec Scheduler.init ops).startTask now i).1.finishedLog := by
  have hinv := inv_exec inv_init ops
  obtain ⟨t, hf⟩ := exists_find_of_mem_ids h
  obtain ⟨htmem, htid⟩ := findTaskById_some hf
  have hpair := @startTask_found (exec Scheduler.init ops) now i t hf
  have hact : ((exec Scheduler.init ops).startTask now i).1.activeTasks =
      (exec Scheduler.init ops).activeTasks ++ [Task.markActive now t] := by
    rw [hpair]
  have hstg : ((exec Scheduler.init ops).startTask now i).1.stagedTasks =
      (exec Scheduler.init ops).stagedTasks.filter (fun x => !(x.id == i)) := by
    rw [hpair]
  have hfin : ((exec Scheduler.init ops).startTask now i).1.finishedLog =
      (exec Scheduler.init ops).finishedLog := by
    rw [hpair]
  refine ⟨t, hf, hact, rfl, rfl, htid, hstg, ?_, hfin, ?_⟩
  · rw [hstg]
    exact not_mem_idsOf_filter i _
  · rw [hfin]
    intro hmem
    rcases mem_idsOf.1 hmem with ⟨b, hb, hbid⟩
    exact hinv.staged_fin t htmem b hb (htid.trans hbid.symm)

/-- C1 witness: after adding one task, starting id 1 at clock 7 moves it. -/
theorem startTask_moves_staged_to_active_witness :
    (1 : Int) ∈ idsOf (exec Scheduler.init [Op.add "a" 5]).stagedTasks ∧
    (∃ t, findTaskById 1 (exec Scheduler.init [Op.add "a" 5]).stagedTasks = some t ∧
      ((exec Scheduler.init [Op.add "a" 5]).startTask 7 1).1.activeTasks =
        (exec Scheduler.init [Op.add "a" 5]).activeTasks ++ [Task.markActive 7 t] ∧
      (Task.markActive 7 t).status = Status.Active ∧
      (Task.markActive 7 t).startTime = 7 ∧
      (Task.markActive 7 t).id = 1 ∧
      ((exec Scheduler.init [Op.add "a" 5]).startTask 7 1).1.stagedTasks =
        (exec Scheduler.init [Op.add "a" 5]).stagedTasks.filter (fun x => !(x.id == 1)) ∧
      (1 : Int) ∉ idsOf ((exec Scheduler.init [Op.add "a" 5]).startTask 7 1).1.stagedTasks ∧
      ((exec Scheduler.init [Op.add "a" 5]).startTask 7 1).1.finishedLog =
        (exec Scheduler.init [Op.add "a" 5]).finishedLog ∧
      (1 : Int) ∉ idsOf ((exec Scheduler.init [Op.add "a" 5]).startTask 7 1).1.finishedLog) :=
  ⟨by decide, startTask_moves_staged_to_active [Op.add "a" 5] 7 1 (by decide)⟩

/-- C2: after any sequence of public operations from a fresh Scheduler,
every task's status matches its compartment, and no id is shared between
two compartments. -/
theorem compartments_disjoint_and_status_coherent (ops : List Op) :
    (∀ t ∈ (exec Scheduler.init ops).stagedTasks, t.status = Status.Staged) ∧
    (∀ t ∈ (exec Scheduler.init ops).activeTasks, t.status = Status.Active) ∧
    (∀ t ∈ (exec Scheduler.init ops).finishedLog, t.status = Status.Finished) ∧
    (∀ a ∈ (exec Scheduler.init ops).stagedTasks,
      ∀ b ∈ (exec Scheduler.init ops).activeTasks, a.id ≠ b.id) ∧
    (∀ a ∈ (exec Scheduler.init ops).stagedTasks,
      ∀ b ∈ (exec Scheduler.init ops).finishedLog, a.id ≠ b.id) ∧
    (∀ a ∈ (exec Scheduler.init ops).activeTasks,
      ∀ b ∈ (exec Scheduler.init ops).finishedLog, a.id ≠ b.id) := by
  have h := inv_exec inv_init ops
  exact ⟨fun t ht => (h.staged_ok t ht).1, fun t ht => (h.active_ok t ht).1,
    h.fin_ok, h.staged_active, h.staged_fin, h.active_fin⟩

/-- C3: `addTask` constructs a task whose id is the current `nextId`,
appends it at the tail of `stagedTasks`, and increments `nextId`; from a
fresh Scheduler the ids produced by successive `addTask` calls are
1, 2, 3, ..., strictly increasing by 1. -/
theorem addTask_assigns_sequential_ids :
    (∀ (s : Scheduler) (d : String) (e : Int),
      (s.addTask d e).1.stagedTasks =
        s.stagedTasks ++ [Task.create s.nextId d e] ∧
      (Task.create s.nextId d e).id = s.nextId ∧
      (s.addTask d e).1.nextId = s.nextId + 1) ∧
    (∀ params : List (String × Int),
      idsOf (exec Scheduler.init
          (params.map (fun p => Op.add p.1 p.2))).stagedTasks =
        (List.range params.length).map (fun (k : Nat) => (k : Int) + 1)) := by
  constructor
  · intro s d e
    exact ⟨rfl, rfl, rfl⟩
  · intro params
    rw [exec_adds]
    show [] ++ (List.range params.length).map
        (fun (k : Nat) => (1 : Int) + (k : Int)) = _
    rw [List.nil_append]
    have hfun : (fun (k : Nat) => (1 : Int) + (k : Int)) =
        (fun (k : Nat) => (k : Int) + 1) := by
      funext k
      ring
    rw [hfun]

/-- C4: when no staged task matches the id, `startTask` emits the not-found
notice and returns the state (all compartments and `nextId`) unchanged. -/
theorem startTask_not_found_no_change (s : Scheduler) (now i : Int)
    (h : ∀ t ∈ s.stagedTasks, t.id ≠ i) :
    s.startTask now i =
      (s, ["Task [#" ++ toString i ++ "] not found in staged tasks."]) :=
  startTask_none (findTaskById_eq_none_iff.mpr h)

/-- C4 witness: starting the missing id 99 on a fresh Scheduler. -/
theorem startTask_not_found_no_change_witness :
    (∀ t ∈ Scheduler.init.stagedTasks, t.id ≠ 99) ∧
    Scheduler.init.startTask 0 99 =
      (Scheduler.init,
       ["Task [#" ++ toString (99 : Int) ++ "] not found in staged tasks."]) :=
  ⟨by decide, startTask_not_found_no_change Scheduler.init 0 99 (by decide)⟩

/-- C5: a task that is staged but not active cannot be finished:
`finishTask` emits the not-found notice, the whole state is unchanged (the
task stays staged), and the staged task carries status Staged and neither
timestamp. -/
theorem finishTask_staged_not_active_noop (ops : List Op) (now i : Int)
    (h1 : i ∈ idsOf (exec Scheduler.init ops).stagedTasks)
    (h2 : i ∉ idsOf (exec Scheduler.init ops).activeTasks) :
    (exec Scheduler.init ops).finishTask now i =
      (exec Scheduler.init ops,
       ["Task [#" ++ toString i ++ "] not found in active tasks."]) ∧
    i ∈ idsOf ((exec Scheduler.init ops).finishTask now i).1.stagedTasks ∧
    (∀ t ∈ (exec Scheduler.init ops).stagedTasks, t.id = i →
      t.status = Status.Staged ∧ t.startTime = 0 ∧ t.finishTime = 0) := by
  have hinv := inv_exec inv_init ops
  have hfnone : findTaskById i (exec Scheduler.init ops).activeTasks = none :=
    findTaskById_eq_none_iff.mpr
      (fun t ht hid => h2 (mem_idsOf.mpr ⟨t, ht, hid⟩))
  have hpair := @finishTask_none (exec Scheduler.init ops) now i hfnone
  refine ⟨hpair, ?_, ?_⟩
  · rw [hpair]
    exact h1
  · intro t ht _
    exact hinv.staged_ok t ht

/-- C5 witness: finishing id 1 while it is only staged is a no-op. -/
theorem finishTask_staged_not_active_noop_witness :
    ((1 : Int) ∈ idsOf (exec Scheduler.init [Op.add "y" 1]).stagedTasks ∧
     (1 : Int) ∉ idsOf (exec Scheduler.init [Op.add "y" 1]).activeTasks) ∧
    ((exec Scheduler.init [Op.add "y" 1]).finishTask 0 1 =
      (exec Scheduler.init [Op.add "y" 1],
       ["Task [#" ++ toString (1 : Int) ++ "] not found in active tasks."]) ∧
     (1 : Int) ∈ idsOf ((exec Scheduler.init [Op.add "y" 1]).finishTask 0 1).1.stagedTasks ∧
     (∀ t ∈ (exec Scheduler.init [Op.add "y" 1]).stagedTasks, t.id = 1 →
       t.status = Status.Staged ∧ t.startTime = 0 ∧ t.finishTime = 0)) :=
  ⟨⟨by decide, by decide⟩,
   finishTask_staged_not_active_noop [Op.add "y" 1] 0 1 (by decide) (by decide)⟩

/-- C6: `printLog` emits a header with the count of `finishedLog`, then one
line per finished task: its `getDetails` rendering followed, exactly when
both timestamps are present (nonzero), by the " | Actual: S s (M m R s)"
segment with S = finishTime - startTime, M = S / 60 and R = S % 60 in
truncating integer arithmetic. -/
theorem printLog_output_format (s : Scheduler) :
    s.printLog.2 =
      ("--- Finished Tasks Log (" ++ toString s.finishedLog.length ++ ") ---") ::
        (if s.finishedLog.isEmpty then ["(none)"]
         else s.finishedLog.map logLine) ∧
    (∀ t : Task, logLine t =
      t.getDetails ++
        (if t.startTime ≠ 0 ∧ t.finishTime ≠ 0 then
          " | Actual: " ++ toString (t.finishTime - t.startTime) ++ " s (" ++
            toString (Int.tdiv (t.finishTime - t.startTime) 60) ++ " m " ++
            toString (Int.tmod (t.finishTime - t.startTime) 60) ++ " s)"
        else "")) := by
  refine ⟨rfl, ?_⟩
  intro t
  unfold logLine
  by_cases h1 : t.startTime = 0
  · simp [h1]
  · by_cases h2 : t.finishTime = 0
    · simp [h1, h2]
    · simp [h1, h2]

/-- C7 counterexample: with a wall clock that steps backwards between the
start and the finish (observed values 10 then 5), a finished task ends up
with finishTime strictly below startTime, so the claim as stated fails. -/
theorem finished_time_monotone_cex :
    ∃ t ∈ (exec Scheduler.init
        [Op.add "a" 1, Op.start 10 1, Op.finish 5 1]).finishedLog,
      t.finishTime < t.startTime := by
  decide

/-- C7 (amended): whenever the wall-clock readings observed by successive
transitions are non-decreasing, every task in `finishedLog` after any
sequence of public operations has finishTime ≥ startTime. -/
theorem finished_time_monotone_of_monotone_clock (ops : List Op) (τ : Int)
    (hm : Mono τ ops) :
    ∀ t ∈ (exec Scheduler.init ops).finishedLog,
      t.startTime ≤ t.finishTime := by
  obtain ⟨τ2, h⟩ := timeOk_exec (timeOk_init τ) hm
  exact h.2

/-- C7 witness: a monotone trace (clocks 3 then 8) satisfies the bound. -/
theorem finished_time_monotone_of_monotone_clock_witness :
    Mono 0 [Op.add "a" 1, Op.start 3 1, Op.finish 8 1] ∧
    (∀ t ∈ (exec Scheduler.init
        [Op.add "a" 1, Op.start 3 1, Op.finish 8 1]).finishedLog,
      t.startTime ≤ t.finishTime) :=
  ⟨⟨by decide, by decide, trivial⟩,
   finished_time_monotone_of_monotone_clock
     [Op.add "a" 1, Op.start 3 1, Op.finish 8 1] 0
     ⟨by decide, by decide, trivial⟩⟩

/-- C8: starting an id that is currently staged and then starting it again
leaves the second call a pure diagnostic: it returns the intermediate state
unchanged together with the not-found notice. -/
theorem startTask_twice_second_noop (ops : List Op) (now1 now2 i : Int)
    (h : i ∈ idsOf (exec Scheduler.init ops).stagedTasks) :
    ((exec Scheduler.init ops).startTask now1 i).1.startTask now2 i =
      (((exec Scheduler.init ops).startTask now1 i).1,
       ["Task [#" ++ toString i ++ "] not found in staged tasks."]) := by
  obtain ⟨t, hf⟩ := exists_find_of_mem_ids h
  have hstate : ((exec Scheduler.init ops).startTask now1 i).1.stagedTasks =
      (exec Scheduler.init ops).stagedTasks.filter (fun x => !(x.id == i)) := by
    rw [startTask_found hf]
  apply startTask_none
  apply findTaskById_eq_none_iff.mpr
  rw [hstate]
  intro x hx
  exact (mem_filter_ne hx).2

/-- C8 witness: adding one task and starting id 1 twice. -/
theorem startTask_twice_second_noop_witness :
    (1 : Int) ∈ idsOf (exec Scheduler.init [Op.add "a" 5]).stagedTasks ∧
    ((exec Scheduler.init [Op.add "a" 5]).startTask 2 1).1.startTask 9 1 =
      (((exec Scheduler.init [Op.add "a" 5]).startTask 2 1).1,
       ["Task [#" ++ toString (1 : Int) ++ "] not found in staged tasks."]) :=
  ⟨by decide, startTask_twice_second_noop [Op.add "a" 5] 2 9 1 (by decide)⟩

/-- C9: the three view operations return the state unchanged, so repeating
the same view immediately produces identical output. -/
theorem views_read_only (s : Scheduler) :
    s.viewStagedTasks.1 = s ∧ s.viewActiveTasks.1 = s ∧ s.printLog.1 = s ∧
    s.viewStagedTasks.1.viewStagedTasks.2 = s.viewStagedTasks.2 ∧
    s.viewActiveTasks.1.viewActiveTasks.2 = s.viewActiveTasks.2 ∧
    s.printLog.1.printLog.2 = s.printLog.2 :=
  ⟨rfl, rfl, rfl, rfl, rfl, rfl⟩

/-- C10: the log line decides timestamp presence by comparing the raw
values with 0 — the Actual segment appears exactly when both are nonzero —
so a task genuinely started at the Unix epoch (clock reading 0) is rendered
without its Actual segment even though both timestamps were stamped. -/
theorem printLog_zero_timestamp_sentinel :
    (∀ t : Task,
      (t.startTime ≠ 0 ∧ t.finishTime ≠ 0 →
        logLine t = t.getDetails ++
          (" | Actual: " ++ toString (t.finishTime - t.startTime) ++ " s (" ++
            toString (Int.tdiv (t.finishTime - t.startTime) 60) ++ " m " ++
            toString (Int.tmod (t.finishTime - t.startTime) 60) ++ " s)")) ∧
      ((t.startTime = 0 ∨ t.finishTime = 0) → logLine t = t.getDetails)) ∧
    (∃ t, (exec Scheduler.init
          [Op.add "epoch" 1, Op.start 0 1, Op.finish 5 1]).finishedLog = [t] ∧
      t.status = Status.Finished ∧ t.startTime = 0 ∧ t.finishTime = 5 ∧
      logLine t = t.getDetails) := by
  constructor
  · intro t
    constructor
    · intro hne
      unfold logLine
      simp [hne.1, hne.2]
    · intro hz
      unfold logLine
      rcases hz with hz | hz
      · simp [hz, String.append_empty]
      · simp [hz, String.append_empty]
  · refine ⟨⟨1, "epoch", 1, Status.Finished, 0, 5⟩, by decide, rfl, rfl, rfl, ?_⟩
    unfold logLine
    simp [String.append_empty]

end OOPSProject
